import Mathlib

/-!
Verification of the dockerbackup backup orchestrator against its design
specification.  The definitions below are a shallow embedding of the Rust
sources (src/backup/mod.rs, src/backup/utils.rs, src/backup/destination.rs):
pure logic is transcribed directly; external effects (subprocess spawns,
filesystem probes, the result channel, process kills) are supplied as
explicit oracle inputs so that the control flow of the Rust code can be
replayed as a function of those inputs.
-/

deriving instance DecidableEq for Except

namespace DockerBackup

/-- Error type carrying a message string, mirroring BackupError in
src/backup/backup_result.rs. -/
structure BackupError where
  message : String
deriving DecidableEq, Repr

/-- Model of the Rust str::ends_with used by exclude_volumes, at the
character-list level so that concrete instances evaluate in the kernel. -/
def str_ends_with (s v : String) : Bool := v.data.isSuffixOf s.data

/-- Model of the Rust str::trim used on df output lines. -/
def str_trim (s : String) : String :=
  String.mk (((s.data.dropWhile Char.isWhitespace).reverse.dropWhile Char.isWhitespace).reverse)

/-- A terminal per-destination result: Ok success-message or Err, mirroring
the Result of String / BackupError values sent over the channel in
src/backup/mod.rs. -/
abbrev Outcome := Except BackupError String

/-- Target operating system of a remote destination (TargetOs in
src/backup/mod.rs). -/
inductive TargetOs where
  | unix
  | windows
deriving DecidableEq, Repr

/-- A configured backup destination: the Ssh and Local variants matched on in
DockerBackup::run (src/backup/mod.rs). -/
inductive BackupDest where
  | Ssh (host : String) (path : String) (target_os : TargetOs)
  | Local (path : String)
deriving DecidableEq, Repr

/-- Display name of a destination as used in the insufficient-space message
(utils.rs uses the raw destination string; destination.rs get_display_name
produces the same string: path for Local, host:path for Ssh). -/
def display_name : BackupDest → String
  | .Ssh h p _ => h ++ ":" ++ p
  | .Local p => p

/-- Label attached to a spawned transfer handle in DockerBackup::run
(src/backup/mod.rs lines 227 and 244). -/
def dest_label : BackupDest → String
  | .Ssh h p _ => "SSH backup to destination " ++ h ++ ":" ++ p
  | .Local p => "Rsync backup to destination " ++ p

/-- Message produced by check_available_space when the destination is too
small (src/backup/utils.rs lines 160-165, identical text in
destination.rs lines 26-33). -/
def insufficient_space_msg (name : String) (required available : Nat) : String :=
  "Not enough space on destination " ++ name ++ ". Required: " ++
    toString required ++ " bytes, Available: " ++ toString available ++ " bytes"

/-- Embedding of check_available_space (src/backup/utils.rs lines 146-167;
the same comparison appears as the default trait method in
src/backup/destination.rs lines 23-35).  The result of the available-space
probe (an external df / ssh command) is passed in as an oracle value. -/
def check_available_space (dest : BackupDest) (avail : Except BackupError Nat)
    (required_size : Nat) : Except BackupError Unit :=
  match avail with
  | .error e => .error e
  | .ok available_space =>
    if available_space < required_size then
      .error ⟨insufficient_space_msg (display_name dest) required_size available_space⟩
    else
      .ok ()

/-- Embedding of exclude_volumes (src/backup/utils.rs lines 35-56, identical
logic in src/backup/destination.rs lines 225-246): volumes is the list of
names of the readable immediate children of the volume root; every excluded
name must be a suffix of some child name, and each accepted name becomes one
skip argument.  Returns the list of skip arguments added to the command. -/
def exclude_volumes (volumes : List String) : List String → Except BackupError (List String)
  | [] => .ok []
  | v :: rest =>
    if volumes.any (fun x => str_ends_with x v) then
      match exclude_volumes volumes rest with
      | .error e => .error e
      | .ok args => .ok (("--exclude=" ++ v) :: args)
    else
      .error ⟨"Excluded volume '" ++ v ++ "' does not exist"⟩

/-- Path join with a forward slash, modelling Path::join on the unix paths
used by create_new_dir. -/
def path_join (a b : String) : String := a ++ "/" ++ b

/-- Embedding of create_new_dir (src/backup/utils.rs lines 58-65, identical
logic in LocalDestination::prepare, src/backup/destination.rs lines 76-84).
The filesystem is modelled as the list of existing directory paths; on
success the new directory is added to it. -/
def create_new_dir (fs : List String) (dest_path new_dir : String) :
    Except BackupError (List String) :=
  let dir_path := path_join dest_path new_dir
  if fs.contains dir_path then
    .error ⟨"Directory already exists"⟩
  else
    .ok (dir_path :: fs)

/-- Two-digit zero padding, modelling the {:02} format used by
get_elapsed_time. -/
def pad2 (n : Nat) : String :=
  if n < 10 then "0" ++ toString n else toString n

/-- Embedding of get_elapsed_time (src/backup/utils.rs lines 283-292): the
elapsed duration is passed in as whole seconds. -/
def get_elapsed_time (elapsed_secs : Nat) (description : String) : String :=
  description ++ ": " ++ pad2 (elapsed_secs / 3600) ++ ":" ++
    pad2 (elapsed_secs % 3600 / 60) ++ ":" ++ pad2 (elapsed_secs % 60)

/-- Terminal classification performed by the monitor thread spawned in
DockerBackup::run (src/backup/mod.rs lines 266-324).  Inputs: the handle
label, the elapsed wall-clock seconds since spawn, whether the process exit
status was success, whether the stderr pipe had been captured
(stderr.take() returned Some), and the result of reading that pipe to the
end. -/
def monitor_outcome (label : String) (elapsed_secs : Nat) (exit_success : Bool)
    (stderr_taken : Bool) (read_res : Except String String) : Outcome :=
  if exit_success then
    .ok (get_elapsed_time elapsed_secs (label ++ " completed successfully in"))
  else if stderr_taken then
    match read_res with
    | .ok stderr_output => .error ⟨stderr_output⟩
    | .error _ => .error ⟨label ++ " backup error"⟩
  else
    .error ⟨label ++ " backup error"⟩

/-- Filesystem tree for the size estimator: a file with a byte size, a
directory with named children, or an entry whose metadata cannot be read
(the io::Error propagated by get_dir_size). -/
inductive Fs where
  | file (size : Nat)
  | unreadable (msg : String)
  | dir (children : List (String × Fs))
deriving Repr

mutual

/-- Embedding of get_dir_size (src/backup/utils.rs lines 128-144):
recursively sums file sizes, propagating the first read error. -/
def get_dir_size : Fs → Except String Nat
  | .file n => .ok n
  | .unreadable m => .error m
  | .dir cs => get_dir_size_list cs

/-- Left-to-right monadic sum over the entries of one directory, mirroring
the for-loop of get_dir_size. -/
def get_dir_size_list : List (String × Fs) → Except String Nat
  | [] => .ok 0
  | (_, f) :: rest =>
    match get_dir_size f with
    | .error e => .error e
    | .ok s =>
      match get_dir_size_list rest with
      | .error e => .error e
      | .ok r => .ok (s + r)

end

mutual

/-- A tree is well formed when it contains no unreadable entries. -/
def fs_wf : Fs → Bool
  | .file _ => true
  | .unreadable _ => false
  | .dir cs => fs_wf_list cs

/-- Well-formedness of a child list. -/
def fs_wf_list : List (String × Fs) → Bool
  | [] => true
  | (_, f) :: rest => fs_wf f && fs_wf_list rest

end

mutual

/-- Specification-level total size of a tree: the sum of all file sizes. -/
def fs_size : Fs → Nat
  | .file n => n
  | .unreadable _ => 0
  | .dir cs => fs_size_list cs

/-- Specification-level total size of a child list. -/
def fs_size_list : List (String × Fs) → Nat
  | [] => 0
  | (_, f) :: rest => fs_size f + fs_size_list rest

end

/-- One entry of the volume root directory as seen by get_volumes_size: a
readable child with its name and tree, or a read_dir entry that errored. -/
inductive RootEnt where
  | entry (name : String) (fs : Fs)
  | unreadable (msg : String)
deriving Repr

/-- Names of the readable children of the volume root, as collected by the
filter_map in exclude_volumes. -/
def child_names (children : List RootEnt) : List String :=
  children.filterMap fun
    | .entry n _ => some n
    | .unreadable _ => none

/-- Accumulating loop of get_volumes_size (src/backup/utils.rs
lines 110-124): entry read errors abort, children whose name is contained
(by exact string equality) in the exclusion list are skipped, the rest
contribute their recursive size. -/
def get_volumes_size_go (excluded : List String) :
    List RootEnt → Nat → Except BackupError Nat
  | [], acc => .ok acc
  | .unreadable m :: _, _ => .error ⟨"Failed to read entry: " ++ m⟩
  | .entry name f :: rest, acc =>
    if excluded.contains name then
      get_volumes_size_go excluded rest acc
    else
      match get_dir_size f with
      | .error e => .error ⟨"Failed to calculate size for " ++ name ++ ": " ++ e⟩
      | .ok s => get_volumes_size_go excluded rest (acc + s)

/-- Embedding of get_volumes_size (src/backup/utils.rs lines 102-126). -/
def get_volumes_size (children : List RootEnt) (excluded : List String) :
    Except BackupError Nat :=
  get_volumes_size_go excluded children 0

/-- Output of one external command invocation: exit status, the lines of its
standard output, and its standard error text. -/
structure CmdOutput where
  success : Bool
  stdout_lines : List String
  stderr : String
deriving Repr

/-- Model of str::parse for u64 on df output fields: succeeds exactly on a
nonempty all-digit string (overflow and an optional leading plus sign are
ignored by the model; df prints plain decimal byte counts). -/
def parse_u64 (s : String) : Option Nat :=
  if s.data ≠ [] ∧ s.data.all Char.isDigit then
    some (s.data.foldl (fun a c => a * 10 + (c.toNat - 48)) 0)
  else
    none

/-- Model of str::split_whitespace: split on whitespace and drop empty
fields, at the character-list level. -/
def split_whitespace (s : String) : List String :=
  ((s.data.splitOnP Char.isWhitespace).filter (fun w => w ≠ [])).map
    (fun w => String.mk w)

/-- Embedding of the unix branch of check_ssh_available_space
(src/backup/utils.rs lines 196-254).  The outputs of the primary probe
command (df -B1 --output=avail) and of the fallback probe command (df -k)
are oracle inputs.  The fallback parses the fourth whitespace-separated
column of the second output line and converts kilobytes to bytes; the
lookup of element 3 returning none corresponds to the parts.len() < 4
check of the source. -/
def check_ssh_available_space (primary fallback : CmdOutput) : Except BackupError Nat :=
  if primary.success then
    match primary.stdout_lines with
    | _ :: line1 :: _ =>
      match parse_u64 (str_trim line1) with
      | some n => .ok n
      | none => .error ⟨"Failed to parse available space"⟩
    | _ => .error ⟨"Invalid df output"⟩
  else
    if fallback.success then
      match fallback.stdout_lines with
      | _ :: line1 :: _ =>
        match (split_whitespace line1).get? 3 with
        | some p =>
          match parse_u64 p with
          | some k => .ok (k * 1024)
          | none => .error ⟨"Failed to parse available space"⟩
        | none => .error ⟨"Invalid df output format"⟩
      | _ => .error ⟨"Invalid df output"⟩
    else
      .error ⟨"ssh df command failed: " ++ fallback.stderr⟩

/-- Embedding of spawn_local_rsync_backup (src/backup/mod.rs lines 379-392):
exclusion validation runs first; only if it succeeds is the rsync process
spawned, whose start result is the oracle spawn_res. -/
def spawn_local_rsync_backup (volumes excluded : List String)
    (spawn_res : Except BackupError Unit) : Except BackupError Unit :=
  match exclude_volumes volumes excluded with
  | .error e => .error e
  | .ok _ => spawn_res

/-- Embedding of spawn_ssh_backup (src/backup/mod.rs lines 393-423):
exclusion validation runs before the tar process is spawned, and the ssh
process is spawned after tar; the two start results are oracles. -/
def spawn_ssh_backup (volumes excluded : List String)
    (tar_res ssh_res : Except BackupError Unit) : Except BackupError Unit :=
  match exclude_volumes volumes excluded with
  | .error e => .error e
  | .ok _ =>
    match tar_res with
    | .error e => .error e
    | .ok _ => ssh_res

/-- A spawned transfer handle as held by the orchestrator: the human-readable
label and, as an oracle, whether killing its process would fail (some
io-error text) or succeed (none). -/
structure TransferHandle where
  label : String
  kill_err : Option String
deriving DecidableEq, Repr

/-- Per-destination oracle data for one run: the destination, the result of
its available-space probe, the directories already existing at a Local
destination, the start results of its transfer processes (spawn1 is the
rsync spawn for Local and the tar spawn for Ssh; spawn2 is the ssh spawn,
unused for Local), and the kill oracle of its handle. -/
structure DestCtx where
  dest : BackupDest
  avail : Except BackupError Nat
  fs : List String
  spawn1 : Except BackupError Unit
  spawn2 : Except BackupError Unit
  kill_err : Option String
deriving Repr

/-- One iteration of the per-destination loop of DockerBackup::run
(src/backup/mod.rs lines 212-253): space check, then for Local
create_new_dir followed by the rsync spawn, for Ssh the tar and ssh spawns;
each failure appends one error Outcome, each success appends one handle. -/
def stage2_step (volumes excluded : List String) (new_dir : String) (total : Nat)
    (acc : List Outcome × List TransferHandle) (d : DestCtx) :
    List Outcome × List TransferHandle :=
  match check_available_space d.dest d.avail total with
  | .error e => (acc.1 ++ [.error e], acc.2)
  | .ok _ =>
    match d.dest with
    | .Ssh _ _ _ =>
      match spawn_ssh_backup volumes excluded d.spawn1 d.spawn2 with
      | .ok _ => (acc.1, acc.2 ++ [⟨dest_label d.dest, d.kill_err⟩])
      | .error e => (acc.1 ++ [.error e], acc.2)
    | .Local p =>
      match create_new_dir d.fs p new_dir with
      | .error e => (acc.1 ++ [.error e], acc.2)
      | .ok _ =>
        match spawn_local_rsync_backup volumes excluded d.spawn1 with
        | .ok _ => (acc.1, acc.2 ++ [⟨dest_label d.dest, d.kill_err⟩])
        | .error e => (acc.1 ++ [.error e], acc.2)

/-- The whole per-destination loop, folded in input order. -/
def stage2 (volumes excluded : List String) (new_dir : String) (total : Nat)
    (dests : List DestCtx) : List Outcome × List TransferHandle :=
  dests.foldl (stage2_step volumes excluded new_dir total) ([], [])

/-- Recognizer for the cancellation sentinel sent by the Ctrl-C handler
(src/backup/mod.rs lines 152-164 and 336). -/
def is_interrupt (m : Outcome) : Bool :=
  match m with
  | .error e => e.message == "Backup interrupted"
  | .ok _ => false

/-- Error entries appended while killing the spawned processes during the
drain (src/backup/mod.rs lines 337-343): one entry per handle whose kill
failed. -/
def kill_errs (handles : List TransferHandle) : List Outcome :=
  handles.filterMap fun h => h.kill_err.map fun m => Except.error ⟨m⟩

/-- The channel-draining loop of DockerBackup::run (src/backup/mod.rs
lines 328-377).  msgs is the sequence of messages that will arrive on the
channel; none models the infinite busy-wait reached when the channel never
yields enough messages.  On the cancellation sentinel every handle is
killed (failed kills append error entries) and one interrupted error is
appended; otherwise the message is appended and the loop returns as soon as
the collected count reaches the destination count.  The second component of
the result records the labels of the handles that were sent a kill request
(instrumentation; empty on the non-interrupted paths). -/
def drain_loop (dest_count : Nat) (handles : List TransferHandle) :
    List Outcome → List Outcome → Option (List Outcome × List String)
  | [], _ => none
  | m :: rest, results =>
    if is_interrupt m then
      some (results ++ kill_errs handles ++ [.error ⟨"Backup interrupted"⟩],
        handles.map TransferHandle.label)
    else
      let results := results ++ [m]
      if results.length = dest_count then
        some (results, [])
      else
        drain_loop dest_count handles rest results

/-- Environment of one invocation of DockerBackup::run: the entries of the
volume root, the exclusion list, the run directory name, the
per-destination oracle data, and the sequence of channel messages. -/
structure RunEnv where
  volume_children : List RootEnt
  excluded_volumes : List String
  new_dir : String
  dests : List DestCtx
  msgs : List Outcome

/-- Embedding of DockerBackup::run (src/backup/mod.rs lines 196-378): size
estimation, the per-destination precondition/spawn loop, the early return
when every destination failed stage 2, then the channel-draining loop.
Returns none when the code would loop forever, and otherwise the report
paired with the labels of the killed handles. -/
def run (env : RunEnv) : Option (List Outcome × List String) :=
  match get_volumes_size env.volume_children env.excluded_volumes with
  | .error e => some ([.error e], [])
  | .ok total =>
    let volumes := child_names env.volume_children
    let s := stage2 volumes env.excluded_volumes env.new_dir total env.dests
    if s.1.length = env.dests.length then
      some (s.1, [])
    else
      drain_loop env.dests.length s.2 env.msgs s.1

/-! ## Lock model for the transfer-handle mutual exclusion

Each TransferHandle is an Arc-Mutex-Child shared between its monitor thread
and the orchestrator cancellation path.  The model below replays the lock
acquisitions, lock releases and process-handle accesses (try_wait, stderr
take, stderr read, kill) of those two parties as event sequences, and
considers every interleaving admitted by mutex semantics. -/

/-- One lock-protocol event of a thread: acquiring the handle mutex,
releasing it, or entering and leaving an access to the shared process
handle. -/
inductive LockEv where
  | acquire
  | release
  | touch_begin
  | touch_end
deriving DecidableEq, Repr

/-- Outcome of one iteration of the monitor loop body (src/backup/mod.rs
lines 271-323): the process is still running, exited successfully, exited
nonzero with a captured stderr that is then read, or exited nonzero without
a captured stderr. -/
inductive IterKind where
  | still_running
  | exit_success
  | exit_fail_read
  | exit_fail_no_stderr
deriving DecidableEq, Repr

/-- Events of one monitor loop iteration.  The MutexGuard produced in the
scrutinee of the if-let lives to the end of the if-let, so the whole body
(try_wait, and on the failure branch the stderr read) runs under the lock. -/
def iter_events : IterKind → List LockEv
  | .still_running => [.acquire, .touch_begin, .touch_end, .release]
  | .exit_success => [.acquire, .touch_begin, .touch_end, .release]
  | .exit_fail_read =>
    [.acquire, .touch_begin, .touch_end, .touch_begin, .touch_end, .release]
  | .exit_fail_no_stderr => [.acquire, .touch_begin, .touch_end, .release]

/-- Events of the whole monitor thread (src/backup/mod.rs lines 266-324):
the initial locked stderr.take(), then the loop iterations. -/
def monitor_events (iterations : List IterKind) : List LockEv :=
  [.acquire, .touch_begin, .touch_end, .release] ++
    (iterations.map iter_events).flatten

/-- Events of the orchestrator cancellation path for one handle
(src/backup/mod.rs lines 337-343): lock, kill, unlock. -/
def kill_events : List LockEv :=
  [.acquire, .touch_begin, .touch_end, .release]

/-- Interleaving of two event sequences into one global trace; events are
tagged with the emitting thread (false for the monitor, true for the kill
path). -/
inductive Interleave : List (Bool × LockEv) → List (Bool × LockEv) →
    List (Bool × LockEv) → Prop where
  | nil : Interleave [] [] []
  | left {x xs ys zs} : Interleave xs ys zs → Interleave (x :: xs) ys (x :: zs)
  | right {y xs ys zs} : Interleave xs ys zs → Interleave xs (y :: ys) (y :: zs)

/-- Mutex semantics of a global trace: an acquire can only happen while the
lock is free, a release only by the holder. -/
def mutex_ok : Option Bool → List (Bool × LockEv) → Bool
  | _, [] => true
  | none, (t, .acquire) :: rest => mutex_ok (some t) rest
  | some _, (_, .acquire) :: _ => false
  | some h, (t, .release) :: rest => h == t && mutex_ok none rest
  | none, (_, .release) :: _ => false
  | h, (_, .touch_begin) :: rest => mutex_ok h rest
  | h, (_, .touch_end) :: rest => mutex_ok h rest

/-- Updates a thread's inside-an-access flag by one of its events. -/
def touch_upd (t : Bool) : LockEv → Bool
  | .touch_begin => true
  | .touch_end => false
  | _ => t

/-- Holds when at no point of the trace both threads are inside an access to
the shared process handle at the same time. -/
def no_concurrent_touch : Bool → Bool → List (Bool × LockEv) → Bool
  | t0, t1, [] => !(t0 && t1)
  | t0, t1, (th, e) :: rest =>
    !(t0 && t1) &&
      (if th then no_concurrent_touch t0 (touch_upd t1 e) rest
       else no_concurrent_touch (touch_upd t0 e) t1 rest)

/-- Lock discipline of one thread's event sequence, given whether it
currently holds the lock and is currently inside an access: it only begins
an access while holding the lock, only acquires when not holding, and only
releases when holding and not mid-access. -/
def discipline : Bool → Bool → List LockEv → Bool
  | _, _, [] => true
  | held, touching, .acquire :: rest => !held && discipline true touching rest
  | held, touching, .release :: rest => held && !touching && discipline false touching rest
  | held, _, .touch_begin :: rest => held && discipline held true rest
  | held, _, .touch_end :: rest => discipline held false rest

/-! ## Theorems -/

/-- C4: check_available_space fails exactly when the probed available space
is strictly below the required size, its error message carries both the
required and the available byte counts, it succeeds when the available
space is at least the required size, and a destination whose space check
failed contributes an error Outcome and no transfer handle (so no transfer
process is spawned for it), whatever its spawn oracles would have done. -/
theorem claim_c4_space_check (dest : BackupDest) (a required : Nat) :
    (a < required →
      check_available_space dest (.ok a) required =
        .error ⟨insufficient_space_msg (display_name dest) required a⟩)
    ∧ (required ≤ a → check_available_space dest (.ok a) required = .ok ())
    ∧ (∀ volumes excluded new_dir acc (d : DestCtx), d.avail = .ok a → a < required →
        stage2_step volumes excluded new_dir required acc d =
          (acc.1 ++ [.error ⟨insufficient_space_msg (display_name d.dest) required a⟩],
            acc.2)) := by
  refine ⟨fun h => ?_, fun h => ?_, fun volumes excluded new_dir acc d hd h => ?_⟩
  · simp [check_available_space, h]
  · simp [check_available_space, Nat.not_lt.mpr h]
  · simp [stage2_step, check_available_space, hd, h]

/-- Closed instance of claim_c4_space_check. -/
theorem claim_c4_space_check_witness :
    check_available_space (.Local "/backup") (.ok 5) 10 =
      .error ⟨insufficient_space_msg (display_name (.Local "/backup")) 10 5⟩ :=
  (claim_c4_space_check (.Local "/backup") 5 10).1 (by decide)

/-- C5: an exclusion list in which every name is a suffix of some child of
the volume root is accepted and turned into one skip argument per name,
while an exclusion list containing a name that matches no child makes
exclude_volumes fail with the unknown-exclusion error, and both
spawn_local_rsync_backup and spawn_ssh_backup then return that error no
matter what their process-start oracles are (so the failure happens before
any transfer subprocess starts). -/
theorem claim_c5_unknown_exclusion (volumes dirs : List String) :
    ((∀ v ∈ dirs, ∃ c ∈ volumes, str_ends_with c v = true) →
        exclude_volumes volumes dirs = .ok (dirs.map fun v => "--exclude=" ++ v))
    ∧ ((∃ v ∈ dirs, ∀ c ∈ volumes, str_ends_with c v = false) →
        ∃ w ∈ dirs, (∀ c ∈ volumes, str_ends_with c w = false) ∧
          exclude_volumes volumes dirs =
            .error ⟨"Excluded volume '" ++ w ++ "' does not exist"⟩ ∧
          (∀ sp, spawn_local_rsync_backup volumes dirs sp =
            .error ⟨"Excluded volume '" ++ w ++ "' does not exist"⟩) ∧
          (∀ sp1 sp2, spawn_ssh_backup volumes dirs sp1 sp2 =
            .error ⟨"Excluded volume '" ++ w ++ "' does not exist"⟩)) := by
  constructor
  · intro hall
    induction dirs with
    | nil => simp [exclude_volumes]
    | cons v rest ih =>
      have hv : ∃ c ∈ volumes, str_ends_with c v = true := hall v (by simp)
      have hany : volumes.any (fun x => str_ends_with x v) = true := by
        rcases hv with ⟨c, hc, hcv⟩
        exact List.any_eq_true.mpr ⟨c, hc, hcv⟩
      have hrest := ih (fun u hu => hall u (by simp [hu]))
      simp [exclude_volumes, hany, hrest]
  · intro hbad
    induction dirs with
    | nil => rcases hbad with ⟨v, hv, _⟩; simp at hv
    | cons v rest ih =>
      by_cases hany : volumes.any (fun x => str_ends_with x v) = true
      · rcases hbad with ⟨u, hu, hnou⟩
        have hur : u ∈ rest := by
          rcases List.mem_cons.mp hu with h | h
          · subst h
            rcases List.any_eq_true.mp hany with ⟨c, hc, hcv⟩
            exact absurd hcv (by simp [hnou c hc])
          · exact h
        rcases ih ⟨u, hur, hnou⟩ with ⟨w, hw, hnow, hex, _, _⟩
        refine ⟨w, by simp [hw], hnow, ?_⟩
        have hres : exclude_volumes volumes (v :: rest) =
            .error ⟨"Excluded volume '" ++ w ++ "' does not exist"⟩ := by
          simp [exclude_volumes, hany, hex]
        exact ⟨hres, fun sp => by simp [spawn_local_rsync_backup, hres],
          fun sp1 sp2 => by simp [spawn_ssh_backup, hres]⟩
      · have hno : ∀ c ∈ volumes, str_ends_with c v = false := by
          intro c hc
          by_contra hcv
          exact hany (List.any_eq_true.mpr ⟨c, hc, by simpa using hcv⟩)
        have hres : exclude_volumes volumes (v :: rest) =
            .error ⟨"Excluded volume '" ++ v ++ "' does not exist"⟩ := by
          simp [exclude_volumes, hany]
        exact ⟨v, by simp, hno, hres,
          fun sp => by simp [spawn_local_rsync_backup, hres],
          fun sp1 sp2 => by simp [spawn_ssh_backup, hres]⟩

/-- Closed instance of claim_c5_unknown_exclusion: a valid suffix exclusion
is accepted, and an exclusion matching no child fails before any spawn. -/
theorem claim_c5_unknown_exclusion_witness :
    exclude_volumes ["data_vol"] ["vol"] = .ok ["--exclude=vol"]
    ∧ spawn_ssh_backup ["data_vol"] ["zzz"] (.ok ()) (.ok ()) =
        .error ⟨"Excluded volume 'zzz' does not exist"⟩ := by
  constructor
  · exact (claim_c5_unknown_exclusion ["data_vol"] ["vol"]).1
      (by intro v hv; simp at hv; subst hv; exact ⟨"data_vol", by simp, by decide⟩)
  · obtain ⟨w, hw, -, -, -, hssh⟩ := (claim_c5_unknown_exclusion ["data_vol"] ["zzz"]).2
      ⟨"zzz", by simp, by decide⟩
    simp at hw
    subst hw
    exact hssh (.ok ()) (.ok ())

/-- C6: create_new_dir (the Local prepare) fails with the already-exists
error exactly when the run directory already exists, on success it only
adds the new directory and leaves every existing one in place, and a second
call with the same arguments after a successful first call always fails
with the already-exists error. -/
theorem claim_c6_prepare_second_call (fs : List String) (p new_dir : String) :
    (path_join p new_dir ∈ fs →
      create_new_dir fs p new_dir = .error ⟨"Directory already exists"⟩)
    ∧ (path_join p new_dir ∉ fs →
      create_new_dir fs p new_dir = .ok (path_join p new_dir :: fs))
    ∧ (∀ fs', create_new_dir fs p new_dir = .ok fs' →
      create_new_dir fs' p new_dir = .error ⟨"Directory already exists"⟩ ∧
        path_join p new_dir ∉ fs ∧ fs' = path_join p new_dir :: fs) := by
  refine ⟨fun h => ?_, fun h => ?_, fun fs' h => ?_⟩
  · simp [create_new_dir, h]
  · simp [create_new_dir, h]
  · by_cases hmem : path_join p new_dir ∈ fs
    · simp [create_new_dir, hmem] at h
    · simp [create_new_dir, hmem] at h
      subst h
      exact ⟨by simp [create_new_dir], hmem, rfl⟩

/-- Closed instance of claim_c6_prepare_second_call: the second prepare of
the same run directory fails. -/
theorem claim_c6_prepare_second_call_witness :
    create_new_dir ["/backup/2024-1-1"] "/backup" "2024-1-1" =
      .error ⟨"Directory already exists"⟩ :=
  (claim_c6_prepare_second_call ["/backup/2024-1-1"] "/backup" "2024-1-1").1 (by decide)

/-- The success-message shape asserted by the specification: any string of
the form Backup to destination NAME completed successfully in TIME.  The
trailing time is generalized to an arbitrary string, which only enlarges
the set of strings matching the claimed shape and hence strengthens the
refutation below. -/
def claimed_success_form (s : String) : Prop :=
  ∃ name time : List Char,
    s.data = ("Backup to destination ").data ++ name ++
      (" completed successfully in ").data ++ time

/-- C7 counterexample: for a Local destination with path /backup the monitor
emits the message Rsync backup to destination /backup completed
successfully in: 00:00:00, which does not have the claimed shape Backup to
destination NAME completed successfully in TIME (the label starts with
Rsync, and a colon precedes the time). -/
theorem claim_c7_counterexample :
    monitor_outcome "Rsync backup to destination /backup" 0 true true (.ok "") =
      .ok "Rsync backup to destination /backup completed successfully in: 00:00:00"
    ∧ ¬ claimed_success_form
        "Rsync backup to destination /backup completed successfully in: 00:00:00" := by
  constructor
  · rfl
  · rintro ⟨name, time, h⟩
    have h2 : some 'R' = some 'B' := congrArg List.head? h
    exact absurd h2 (by decide)

/-- C7 as amended: on a successful exit the monitor emits a Success outcome
whose message is the handle label (Rsync backup to destination PATH, or SSH
backup to destination HOST:PATH), then the words completed successfully in,
then a colon and the zero-padded elapsed HH:MM:SS; on a nonzero exit with
captured stderr it emits an Error carrying the stderr text; and when stderr
was not captured or cannot be read it emits the generic LABEL backup error
message. -/
theorem claim_c7_monitor_messages (label : String) (secs : Nat) (tk : Bool)
    (rr : Except String String) (s e : String) :
    monitor_outcome label secs true tk rr =
      .ok (label ++ " completed successfully in" ++ ": " ++ pad2 (secs / 3600) ++ ":" ++
        pad2 (secs % 3600 / 60) ++ ":" ++ pad2 (secs % 60))
    ∧ monitor_outcome label secs false true (.ok s) = .error ⟨s⟩
    ∧ monitor_outcome label secs false true (.error e) =
        .error ⟨label ++ " backup error"⟩
    ∧ monitor_outcome label secs false false rr =
        .error ⟨label ++ " backup error"⟩ := by
  refine ⟨rfl, rfl, rfl, rfl⟩

/-- Subtrees of the root entries that the estimator is specified to count:
the readable children whose name is not in the exclusion list. -/
def kept_subtrees (excluded : List String) (children : List RootEnt) : List Fs :=
  children.filterMap fun
    | .entry n f => if excluded.contains n then none else some f
    | .unreadable _ => none

mutual

/-- On a tree without unreadable entries, get_dir_size computes the
specification-level total size. -/
theorem get_dir_size_of_wf : ∀ f, fs_wf f = true → get_dir_size f = .ok (fs_size f)
  | .file _, _ => rfl
  | .unreadable m, h => by simp [fs_wf] at h
  | .dir cs, h => by
    have hl := get_dir_size_list_of_wf cs (by simpa [fs_wf] using h)
    simpa [get_dir_size, fs_size] using hl

/-- List version of get_dir_size_of_wf. -/
theorem get_dir_size_list_of_wf : ∀ cs, fs_wf_list cs = true →
    get_dir_size_list cs = .ok (fs_size_list cs)
  | [], _ => rfl
  | (n, f) :: rest, h => by
    have hh : fs_wf f = true ∧ fs_wf_list rest = true := by simpa [fs_wf_list] using h
    simp [get_dir_size_list, fs_size_list, get_dir_size_of_wf f hh.1,
      get_dir_size_list_of_wf rest hh.2]

end

/-- Accumulator form of the all-readable case of the estimator. -/
theorem get_volumes_size_go_sum (excluded : List String) :
    ∀ (l : List RootEnt) (acc : Nat),
      (∀ ent ∈ l, ∃ n f, ent = .entry n f ∧ fs_wf f = true) →
      get_volumes_size_go excluded l acc =
        .ok (acc + ((kept_subtrees excluded l).map fs_size).sum) := by
  intro l
  induction l with
  | nil => intro acc _; simp [get_volumes_size_go, kept_subtrees]
  | cons ent rest ih =>
    intro acc hgood
    obtain ⟨n, f, hent, hwf⟩ := hgood ent (by simp)
    subst hent
    have hrest : ∀ x ∈ rest, ∃ n f, x = RootEnt.entry n f ∧ fs_wf f = true :=
      fun x hx => hgood x (by simp [hx])
    by_cases hex : n ∈ excluded
    · simp [get_volumes_size_go, hex, ih acc hrest, kept_subtrees]
    · simp [get_volumes_size_go, hex, get_dir_size_of_wf f hwf,
        ih (acc + fs_size f) hrest, kept_subtrees]
      omega

/-- Accumulator form of the unreadable-entry case of the estimator. -/
theorem get_volumes_size_go_err (excluded : List String) (m : String)
    (rest : List RootEnt) :
    ∀ (front : List RootEnt) (acc : Nat),
      (∀ ent ∈ front, ∃ n f, ent = .entry n f ∧ fs_wf f = true) →
      get_volumes_size_go excluded (front ++ .unreadable m :: rest) acc =
        .error ⟨"Failed to read entry: " ++ m⟩ := by
  intro front
  induction front with
  | nil => intro acc _; simp [get_volumes_size_go]
  | cons ent fr ih =>
    intro acc hgood
    obtain ⟨n, f, hent, hwf⟩ := hgood ent (by simp)
    subst hent
    have hfr : ∀ x ∈ fr, ∃ n f, x = RootEnt.entry n f ∧ fs_wf f = true :=
      fun x hx => hgood x (by simp [hx])
    by_cases hex : n ∈ excluded
    · simp [get_volumes_size_go, hex, ih acc hfr]
    · simp [get_volumes_size_go, hex, get_dir_size_of_wf f hwf,
        ih (acc + fs_size f) hfr]

/-- C8: on a volume root whose entries are all readable, the estimator
returns exactly the sum of the recursive sizes of the immediate children
whose name is not in the exclusion set (children named in the exclusion set
contribute nothing), and an unreadable directory entry makes it fail with
the read-entry error. -/
theorem claim_c8_estimator (children : List RootEnt) (excluded : List String) :
    ((∀ ent ∈ children, ∃ n f, ent = .entry n f ∧ fs_wf f = true) →
      get_volumes_size children excluded =
        .ok (((kept_subtrees excluded children).map fs_size).sum))
    ∧ (∀ front m rest, children = front ++ .unreadable m :: rest →
        (∀ ent ∈ front, ∃ n f, ent = .entry n f ∧ fs_wf f = true) →
        get_volumes_size children excluded =
          .error ⟨"Failed to read entry: " ++ m⟩) := by
  constructor
  · intro hgood
    simpa [get_volumes_size] using get_volumes_size_go_sum excluded children 0 hgood
  · intro front m rest hch hgood
    subst hch
    simpa [get_volumes_size] using get_volumes_size_go_err excluded m rest front 0 hgood

/-- Closed instance of claim_c8_estimator: two children, one excluded by
exact name, and an unreadable entry aborting the estimate. -/
theorem claim_c8_estimator_witness :
    get_volumes_size [.entry "vol_a" (.file 3), .entry "vol_b" (.file 4)] ["vol_b"] =
      .ok 3
    ∧ get_volumes_size [.entry "vol_a" (.file 3), .unreadable "io error"] [] =
      .error ⟨"Failed to read entry: io error"⟩ := by
  constructor
  · have h := (claim_c8_estimator
        [.entry "vol_a" (.file 3), .entry "vol_b" (.file 4)] ["vol_b"]).1
      (by
        intro ent hent
        simp at hent
        rcases hent with h | h <;> exact ⟨_, _, h, rfl⟩)
    simpa [kept_subtrees, fs_size] using h
  · exact (claim_c8_estimator
        [.entry "vol_a" (.file 3), .unreadable "io error"] []).2
      [.entry "vol_a" (.file 3)] "io error" []
      (by simp)
      (by
        intro ent hent
        simp at hent
        exact ⟨_, _, hent, rfl⟩)

/-- Result of parsing the primary probe output (second line, trimmed, as a
decimal byte count). -/
def primary_parse (o : CmdOutput) : Option Nat :=
  match o.stdout_lines with
  | _ :: line1 :: _ => parse_u64 (str_trim line1)
  | _ => none

/-- Result of parsing the fallback probe output (fourth whitespace-separated
column of the second line, in kilobytes, converted to bytes). -/
def fallback_parse (o : CmdOutput) : Option Nat :=
  match o.stdout_lines with
  | _ :: line1 :: _ =>
    match (split_whitespace line1).get? 3 with
    | some p => (parse_u64 p).map (fun k => k * 1024)
    | none => none
  | _ => none

/-- C9: the unix remote space probe consults the fallback command exactly
when the primary command reports failure; a parsable primary output yields
its second line as a byte count; a parsable fallback output yields its
fourth column times 1024; when both commands fail it reports the probe
error; and every error outcome implies that the primary failed or its
output was unparsable, and in the former case that the fallback also
failed or was unparsable. -/
theorem claim_c9_ssh_space_fallback (primary fallback : CmdOutput) :
    (primary.success = true → ∀ fb fb',
      check_ssh_available_space primary fb = check_ssh_available_space primary fb')
    ∧ (primary.success = true → ∀ n, primary_parse primary = some n →
      check_ssh_available_space primary fallback = .ok n)
    ∧ (primary.success = false → fallback.success = true →
      ∀ n, fallback_parse fallback = some n →
      check_ssh_available_space primary fallback = .ok n)
    ∧ (primary.success = false → fallback.success = false →
      check_ssh_available_space primary fallback =
        .error ⟨"ssh df command failed: " ++ fallback.stderr⟩)
    ∧ (∀ e, check_ssh_available_space primary fallback = .error e →
      (primary.success = true ∧ primary_parse primary = none) ∨
      (primary.success = false ∧
        (fallback.success = false ∨ fallback_parse fallback = none))) := by
  refine ⟨?_, ?_, ?_, ?_, ?_⟩
  · intro hp fb fb'
    simp [check_ssh_available_space, hp]
  · intro hp n hn
    rcases hl : primary.stdout_lines with _ | ⟨l0, _ | ⟨line1, ls⟩⟩
    · simp [primary_parse, hl] at hn
    · simp [primary_parse, hl] at hn
    · simp only [primary_parse, hl] at hn
      simp [check_ssh_available_space, hp, hl, hn]
  · intro hp hf n hn
    rcases hl : fallback.stdout_lines with _ | ⟨l0, _ | ⟨line1, ls⟩⟩
    · simp [fallback_parse, hl] at hn
    · simp [fallback_parse, hl] at hn
    · simp only [fallback_parse, hl] at hn
      simp only [check_ssh_available_space, hp, hf, Bool.false_eq_true, if_false,
        if_true, hl]
      cases hg : (split_whitespace line1).get? 3 with
      | none =>
        rw [List.get?_eq_getElem?] at hg
        simp [hg] at hn
      | some p =>
        simp only [hg] at hn
        cases hk : parse_u64 p with
        | none => simp [hk] at hn
        | some k =>
          simp [hg, hk]
          obtain ⟨a, ha, han⟩ := by simpa using hn
          rw [hk] at ha
          cases ha
          exact han
  · intro hp hf
    simp [check_ssh_available_space, hp, hf]
  · intro e he
    by_cases hp : primary.success = true
    · left
      refine ⟨hp, ?_⟩
      rcases hl : primary.stdout_lines with _ | ⟨l0, _ | ⟨line1, ls⟩⟩
      · simp [primary_parse, hl]
      · simp [primary_parse, hl]
      · simp only [check_ssh_available_space, hp, if_true, hl] at he
        simp only [primary_parse, hl]
        cases hv : parse_u64 (str_trim line1) with
        | none => rfl
        | some n => simp [hv] at he
    · right
      have hp' : primary.success = false := by simpa using hp
      refine ⟨hp', ?_⟩
      by_cases hf : fallback.success = true
      · right
        rcases hl : fallback.stdout_lines with _ | ⟨l0, _ | ⟨line1, ls⟩⟩
        · simp [fallback_parse, hl]
        · simp [fallback_parse, hl]
        · simp only [check_ssh_available_space, hp', Bool.false_eq_true, if_false,
            hf, if_true, hl] at he
          simp only [fallback_parse, hl]
          cases hg : (split_whitespace line1).get? 3 with
          | none => rfl
          | some p =>
            simp only [hg] at he
            cases hk : parse_u64 p with
            | none => simp [hg, hk]
            | some k => simp [hk] at he
      · left
        simpa using hf

/-- Closed instance of claim_c9_ssh_space_fallback: the primary probe fails,
the fallback output is parsed from its fourth column and converted from
kilobytes to bytes. -/
theorem claim_c9_ssh_space_fallback_witness :
    check_ssh_available_space
      ⟨false, [], "df: unrecognized option"⟩
      ⟨true, ["Filesystem 1K-blocks Used Available Capacity Mounted",
        "/dev/sda1 1000 500 2048 50% /backup"], ""⟩ = .ok (2048 * 1024) := by
  have h := (claim_c9_ssh_space_fallback
      ⟨false, [], "df: unrecognized option"⟩
      ⟨true, ["Filesystem 1K-blocks Used Available Capacity Mounted",
        "/dev/sda1 1000 500 2048 50% /backup"], ""⟩).2.2.1
    rfl rfl (2048 * 1024)
  exact h (by decide)

/-- C10: for an excluded name that is a strict suffix of some child name and
equal to no child name, the spawn-time validation accepts the exclusion and
emits a skip argument, while the size estimator skips nothing: its result
on that exclusion list equals its result with no exclusions at all, so the
matching child's bytes are still counted. -/
theorem claim_c10_suffix_mismatch (children : List RootEnt) (e : String) :
    (∃ c ∈ child_names children, str_ends_with c e = true) →
    (∀ c ∈ child_names children, c ≠ e) →
    exclude_volumes (child_names children) [e] = .ok ["--exclude=" ++ e]
    ∧ get_volumes_size children [e] = get_volumes_size children [] := by
  intro hsuf hne
  constructor
  · rcases hsuf with ⟨c, hc, hce⟩
    have hany : (child_names children).any (fun x => str_ends_with x e) = true :=
      List.any_eq_true.mpr ⟨c, hc, hce⟩
    simp [exclude_volumes, hany]
  · have go_eq : ∀ (l : List RootEnt) (acc : Nat),
        (∀ c ∈ child_names l, c ≠ e) →
        get_volumes_size_go [e] l acc = get_volumes_size_go [] l acc := by
      intro l
      induction l with
      | nil => intro acc _; rfl
      | cons ent rest ih =>
        intro acc hl
        cases ent with
        | unreadable m => rfl
        | entry n f =>
          have hn : n ≠ e := hl n (by simp [child_names])
          have hrest : ∀ c ∈ child_names rest, c ≠ e := by
            intro c hc
            exact hl c (by simp [child_names] at hc ⊢; exact Or.inr hc)
          simp only [get_volumes_size_go]
          have hnm : (n ∈ ([e] : List String)) = False := by simp [hn]
          simp only [List.contains_cons, List.contains_nil, Bool.or_false]
          have : (n == e) = false := by simp [hn]
          simp only [this, List.elem_nil, Bool.false_eq_true, if_false]
          cases get_dir_size f with
          | error er => rfl
          | ok s => exact ih (acc + s) hrest
    have := go_eq children 0 hne
    simpa [get_volumes_size] using this

/-- Closed instance of claim_c10_suffix_mismatch: excluding the name data
matches the child docker_data at spawn time but the estimator still counts
its 7 bytes. -/
theorem claim_c10_suffix_mismatch_witness :
    exclude_volumes (child_names [.entry "docker_data" (.file 7)]) ["data"] =
      .ok ["--exclude=data"]
    ∧ get_volumes_size [.entry "docker_data" (.file 7)] ["data"] =
      get_volumes_size [.entry "docker_data" (.file 7)] [] := by
  exact claim_c10_suffix_mismatch [.entry "docker_data" (.file 7)] "data"
    ⟨"docker_data", by simp [child_names], by decide⟩
    (by intro c hc; simp [child_names] at hc; subst hc; decide)

/-- A destination passes all of stage 2: its space check succeeds, for a
Local destination its run directory is created, and its transfer processes
start. -/
def dest_ok (volumes excluded : List String) (new_dir : String) (total : Nat)
    (d : DestCtx) : Prop :=
  check_available_space d.dest d.avail total = .ok () ∧
  match d.dest with
  | .Ssh _ _ _ => spawn_ssh_backup volumes excluded d.spawn1 d.spawn2 = .ok ()
  | .Local p => (∃ fs', create_new_dir d.fs p new_dir = .ok fs') ∧
      spawn_local_rsync_backup volumes excluded d.spawn1 = .ok ()

/-- A destination that passes stage 2 contributes no error Outcome and
exactly one transfer handle. -/
theorem stage2_step_ok (volumes excluded : List String) (new_dir : String)
    (total : Nat) (acc : List Outcome × List TransferHandle) (d : DestCtx)
    (hok : dest_ok volumes excluded new_dir total d) :
    stage2_step volumes excluded new_dir total acc d =
      (acc.1, acc.2 ++ [⟨dest_label d.dest, d.kill_err⟩]) := by
  obtain ⟨hchk, hrest⟩ := hok
  cases hd : d.dest with
  | Ssh h p os =>
    rw [hd] at hchk hrest
    simp [stage2_step, hd, hchk, hrest]
  | Local p =>
    rw [hd] at hchk hrest
    obtain ⟨⟨fs', hfs⟩, hsp⟩ := hrest
    simp [stage2_step, hd, hchk, hfs, hsp]

/-- Folding stage 2 over destinations that all pass appends exactly one
handle per destination and no error Outcome. -/
theorem stage2_all_ok (volumes excluded : List String) (new_dir : String)
    (total : Nat) :
    ∀ (dests : List DestCtx) (acc : List Outcome × List TransferHandle),
      (∀ d ∈ dests, dest_ok volumes excluded new_dir total d) →
      dests.foldl (stage2_step volumes excluded new_dir total) acc =
        (acc.1, acc.2 ++ dests.map fun d => ⟨dest_label d.dest, d.kill_err⟩) := by
  intro dests
  induction dests with
  | nil => intro acc _; simp
  | cons d rest ih =>
    intro acc hall
    have hd := hall d (by simp)
    have hrest : ∀ x ∈ rest, dest_ok volumes excluded new_dir total x :=
      fun x hx => hall x (by simp [hx])
    simp only [List.foldl_cons, stage2_step_ok volumes excluded new_dir total acc d hd,
      ih (acc.1, acc.2 ++ [⟨dest_label d.dest, d.kill_err⟩]) hrest, List.map_cons]
    simp

/-- Draining a message sequence of successful terminal Outcomes returns as
soon as the collected count reaches the destination count. -/
theorem drain_loop_all_ok (dc : Nat) (handles : List TransferHandle) :
    ∀ (msgs acc : List Outcome),
      (∀ m ∈ msgs, ∃ s, m = .ok s) →
      acc.length + msgs.length = dc →
      acc.length < dc →
      drain_loop dc handles msgs acc = some (acc ++ msgs, []) := by
  intro msgs
  induction msgs with
  | nil =>
    intro acc _ hlen hlt
    simp at hlen
    omega
  | cons m rest ih =>
    intro acc hok hlen hlt
    obtain ⟨s, hm⟩ := hok m (by simp)
    subst hm
    have hrest : ∀ x ∈ rest, ∃ s, x = Except.ok s := fun x hx => hok x (by simp [hx])
    simp only [List.length_cons] at hlen
    by_cases hdone : acc.length + 1 = dc
    · have hre : rest = [] := by
        have : rest.length = 0 := by omega
        exact List.eq_nil_of_length_eq_zero this
      subst hre
      simp [drain_loop, is_interrupt, hdone]
    · have hlen' : (acc ++ [Except.ok s]).length + rest.length = dc := by
        simp
        omega
      have hlt' : (acc ++ [Except.ok s]).length < dc := by
        simp
        omega
      have hrec := ih (acc ++ [Except.ok s]) hrest hlen' hlt'
      simp [drain_loop, is_interrupt, hdone, hrec]

/-- C1: when the size estimation succeeds, every destination passes its
precondition checks and spawns, and the channel delivers one
non-interrupted successful terminal Outcome per destination, run returns
(rather than blocking) with a report holding exactly one terminal Outcome
per destination, and it does so only once the collected count equals the
destination count. -/
theorem claim_c1_complete_run (env : RunEnv) (total : Nat)
    (hsize : get_volumes_size env.volume_children env.excluded_volumes = .ok total)
    (hdest : ∀ d ∈ env.dests, dest_ok (child_names env.volume_children)
        env.excluded_volumes env.new_dir total d)
    (hmsgs_len : env.msgs.length = env.dests.length)
    (hmsgs_ok : ∀ m ∈ env.msgs, ∃ s, m = .ok s) :
    ∃ report, run env = some (report, []) ∧ report.length = env.dests.length ∧
      ∀ o ∈ report, ∃ s, o = .ok s := by
  have hs2 : stage2 (child_names env.volume_children) env.excluded_volumes
      env.new_dir total env.dests =
      ([], env.dests.map fun d => ⟨dest_label d.dest, d.kill_err⟩) := by
    simpa [stage2] using stage2_all_ok (child_names env.volume_children)
      env.excluded_volumes env.new_dir total env.dests ([], []) hdest
  by_cases hzero : env.dests.length = 0
  · refine ⟨[], ?_, by simp [hzero], by simp⟩
    simp [run, hsize, hs2, hzero]
  · refine ⟨env.msgs, ?_, hmsgs_len, hmsgs_ok⟩
    have hdr := drain_loop_all_ok env.dests.length
      (env.dests.map fun d => ⟨dest_label d.dest, d.kill_err⟩) env.msgs []
      hmsgs_ok (by simpa using hmsgs_len) (by simp; omega)
    simp only [run, hsize, hs2]
    simp [hzero, hdr]
    exact fun h => absurd h.symm hzero

/-- Closed instance of claim_c1_complete_run: one Local destination, one
successful Outcome. -/
theorem claim_c1_complete_run_witness :
    ∃ report,
      run ⟨[.entry "vol_a" (.file 3)], [], "2024-1-1",
        [⟨.Local "/backup", .ok 100, [], .ok (), .ok (), none⟩],
        [.ok "Rsync backup to destination /backup completed successfully in: 00:00:05"]⟩ =
        some (report, []) ∧
      report.length = 1 ∧ ∀ o ∈ report, ∃ s, o = .ok s := by
  have h := claim_c1_complete_run
    ⟨[.entry "vol_a" (.file 3)], [], "2024-1-1",
      [⟨.Local "/backup", .ok 100, [], .ok (), .ok (), none⟩],
      [.ok "Rsync backup to destination /backup completed successfully in: 00:00:05"]⟩ 3
    (by simp [get_volumes_size, get_volumes_size_go, get_dir_size])
    (by
      intro d hd
      simp at hd
      subst hd
      exact ⟨rfl, ⟨_, rfl⟩, rfl⟩)
    rfl
    (by intro m hm; simp at hm; exact ⟨_, hm⟩)
  simpa using h

/-- Draining a message sequence that reaches the cancellation sentinel
before completion returns the collected Outcomes, one error entry per
failed kill, and a final interrupted error, and issues a kill to every
handle. -/
theorem drain_loop_interrupt (dc : Nat) (handles : List TransferHandle)
    (rest : List Outcome) :
    ∀ (pre acc : List Outcome),
      (∀ m ∈ pre, is_interrupt m = false) →
      acc.length + pre.length < dc →
      drain_loop dc handles (pre ++ .error ⟨"Backup interrupted"⟩ :: rest) acc =
        some (acc ++ pre ++ kill_errs handles ++ [.error ⟨"Backup interrupted"⟩],
          handles.map TransferHandle.label) := by
  intro pre
  induction pre with
  | nil =>
    intro acc _ _
    have hint : is_interrupt (.error ⟨"Backup interrupted"⟩) = true := by decide
    simp [drain_loop, hint]
  | cons m mrest ih =>
    intro acc hni hlt
    have hm : is_interrupt m = false := hni m (by simp)
    have hmrest : ∀ x ∈ mrest, is_interrupt x = false := fun x hx => hni x (by simp [hx])
    have hne : ¬ (acc ++ [m]).length = dc := by
      simp at hlt ⊢
      omega
    have hlt' : (acc ++ [m]).length + mrest.length < dc := by
      simp at hlt ⊢
      omega
    have hrec := ih (acc ++ [m]) hmrest hlt'
    simp only [List.cons_append, drain_loop, hm, Bool.false_eq_true, if_false, hne,
      if_false]
    simp [hrec]

/-- C2: when the cancellation sentinel arrives after K collected terminal
Outcomes (stage-2 failures plus delivered messages) and before completion,
run returns the K collected Outcomes followed by one error entry per
failed kill and a final interrupted error, every spawned handle (in
particular every destination whose transfer had not yet terminated) is
sent a kill request, and when every kill succeeds the report has length
exactly K plus one with the interrupted error as its final entry. -/
theorem claim_c2_interrupted_run (env : RunEnv) (total : Nat)
    (res0 : List Outcome) (handles : List TransferHandle)
    (pre rest : List Outcome)
    (hsize : get_volumes_size env.volume_children env.excluded_volumes = .ok total)
    (hs2 : stage2 (child_names env.volume_children) env.excluded_volumes
      env.new_dir total env.dests = (res0, handles))
    (hmsgs : env.msgs = pre ++ .error ⟨"Backup interrupted"⟩ :: rest)
    (hpre : ∀ m ∈ pre, is_interrupt m = false)
    (hK : res0.length + pre.length < env.dests.length) :
    run env = some (res0 ++ pre ++ kill_errs handles ++ [.error ⟨"Backup interrupted"⟩],
        handles.map TransferHandle.label)
    ∧ (res0 ++ pre ++ kill_errs handles ++
        ([.error ⟨"Backup interrupted"⟩] : List Outcome)).getLast? =
        some (Except.error ⟨"Backup interrupted"⟩)
    ∧ ((∀ h ∈ handles, h.kill_err = none) →
        (res0 ++ pre ++ kill_errs handles ++
          ([.error ⟨"Backup interrupted"⟩] : List Outcome)).length =
          res0.length + pre.length + 1) := by
  refine ⟨?_, ?_, ?_⟩
  · have hne : ¬ res0.length = env.dests.length := by omega
    have hdr := drain_loop_interrupt env.dests.length handles rest pre res0 hpre hK
    rw [← hmsgs] at hdr
    simp only [run, hsize, hs2]
    simp [hne, hdr]
  · exact List.getLast?_concat _
  · intro hkills
    have hke : kill_errs handles = [] := by
      simp only [kill_errs]
      rw [List.filterMap_eq_nil_iff]
      intro h hh
      simp [hkills h hh]
    simp [hke]
    omega

/-- Closed instance of claim_c2_interrupted_run: one destination, sentinel
arriving before any Outcome, a successful kill, report of length one. -/
theorem claim_c2_interrupted_run_witness :
    run ⟨[.entry "vol_a" (.file 3)], [], "2024-1-1",
      [⟨.Local "/backup", .ok 100, [], .ok (), .ok (), none⟩],
      [.error ⟨"Backup interrupted"⟩]⟩ =
      some (([.error ⟨"Backup interrupted"⟩] : List Outcome),
        ["Rsync backup to destination /backup"])
    ∧ ([Except.error (⟨"Backup interrupted"⟩ : BackupError)] : List Outcome).length = 0 + 0 + 1 := by
  have h := claim_c2_interrupted_run
    ⟨[.entry "vol_a" (.file 3)], [], "2024-1-1",
      [⟨.Local "/backup", .ok 100, [], .ok (), .ok (), none⟩],
      [.error ⟨"Backup interrupted"⟩]⟩ 3
    [] [⟨"Rsync backup to destination /backup", none⟩] [] []
    (by simp [get_volumes_size, get_volumes_size_go, get_dir_size])
    rfl
    rfl
    (by simp)
    (by simp)
  refine ⟨?_, ?_⟩
  · have h1 := h.1
    simpa [kill_errs] using h1
  · exact h.2.2 (by simp)


/-- One monitor loop iteration keeps the lock discipline and returns to the
not-held, not-touching state. -/
theorem discipline_iter (k : IterKind) (l : List LockEv) :
    discipline false false (iter_events k ++ l) = discipline false false l := by
  cases k <;> rfl

/-- Any sequence of monitor loop iterations keeps the lock discipline. -/
theorem discipline_flatten : ∀ ks : List IterKind,
    discipline false false ((ks.map iter_events).flatten) = true
  | [] => rfl
  | k :: rest => by
    rw [List.map_cons, List.flatten_cons, discipline_iter]
    exact discipline_flatten rest

/-- The monitor thread obeys the lock discipline: it touches the shared
process handle only while holding the handle mutex. -/
theorem discipline_monitor (choices : List IterKind) :
    discipline false false (monitor_events choices) = true := by
  have h : discipline false false (monitor_events choices) =
      discipline false false ((choices.map iter_events).flatten) := rfl
  rw [h]
  exact discipline_flatten choices

/-- The cancellation path obeys the lock discipline: it kills only while
holding the handle mutex. -/
theorem discipline_kill : discipline false false kill_events = true := rfl

/-- Two threads whose touch flags imply lock ownership of the same
single-holder lock are never both touching. -/
theorem not_both_touching {t0 t1 h0 h1 : Bool} {L : Option Bool}
    (i0 : t0 = true → h0 = true) (i1 : t1 = true → h1 = true)
    (j0 : h0 = true → L = some false) (j1 : h1 = true → L = some true) :
    (!(t0 && t1)) = true := by
  cases t0 with
  | false => rfl
  | true =>
    cases t1 with
    | false => rfl
    | true =>
      have e0 := j0 (i0 rfl)
      have e1 := j1 (i1 rfl)
      rw [e0] at e1
      exact absurd (Option.some.inj e1) (by decide)

/-- Mutex-compatible interleavings of two lock-disciplined threads never
have both threads inside an access to the shared handle at the same time:
the central invariant is that a touching thread holds the lock, and the
lock has a single holder. -/
theorem no_touch_race {a b tr : List (Bool × LockEv)} (hint : Interleave a b tr) :
    ∀ (h0 t0 h1 t1 : Bool) (L : Option Bool),
      (∀ x ∈ a, x.1 = false) → (∀ x ∈ b, x.1 = true) →
      discipline h0 t0 (a.map Prod.snd) = true →
      discipline h1 t1 (b.map Prod.snd) = true →
      (t0 = true → h0 = true) → (t1 = true → h1 = true) →
      (h0 = true → L = some false) → (h1 = true → L = some true) →
      mutex_ok L tr = true →
      no_concurrent_touch t0 t1 tr = true := by
  induction hint with
  | nil =>
    intro h0 t0 h1 t1 L _ _ _ _ i0 i1 j0 j1 _
    simpa [no_concurrent_touch] using not_both_touching i0 i1 j0 j1
  | @left x xs ys zs hrec ih =>
    intro h0 t0 h1 t1 L ha hb d0 d1 i0 i1 j0 j1 hmx
    obtain ⟨tag, e⟩ := x
    have htag : tag = false := ha (tag, e) (by simp)
    subst htag
    have ha' : ∀ y ∈ xs, y.1 = false := fun y hy => ha y (by simp [hy])
    simp only [List.map_cons] at d0
    cases e with
    | acquire =>
      simp only [discipline, Bool.and_eq_true, Bool.not_eq_true'] at d0
      obtain ⟨hh0, d0'⟩ := d0
      subst hh0
      cases L with
      | some c => simp [mutex_ok] at hmx
      | none =>
        have hmx' : mutex_ok (some false) zs = true := by simpa [mutex_ok] using hmx
        have ht0 : t0 = false := by
          cases t0 with
          | false => rfl
          | true => exact absurd (i0 rfl) (by simp)
        subst ht0
        have h1f : h1 = false := by
          cases h1 with
          | false => rfl
          | true => exact absurd (j1 rfl) (by simp)
        have hco := ih true false h1 t1 (some false) ha' hb d0' d1
          (fun _ => rfl) i1 (fun _ => rfl)
          (fun hh => absurd hh (by simp [h1f])) hmx'
        simp [no_concurrent_touch, touch_upd, hco]
    | release =>
      simp only [discipline, Bool.and_eq_true, Bool.not_eq_true'] at d0
      obtain ⟨⟨hh0, ht0⟩, d0'⟩ := d0
      subst hh0
      subst ht0
      have hL : L = some false := j0 rfl
      subst hL
      have hmx' : mutex_ok none zs = true := by simpa [mutex_ok] using hmx
      have h1f : h1 = false := by
        cases h1 with
        | false => rfl
        | true => exact absurd (j1 rfl) (by simp)
      have hco := ih false false h1 t1 none ha' hb d0' d1
        (fun hh => absurd hh (by simp)) i1
        (fun hh => absurd hh (by simp))
        (fun hh => absurd hh (by simp [h1f])) hmx'
      simp [no_concurrent_touch, touch_upd, hco]
    | touch_begin =>
      simp only [discipline, Bool.and_eq_true] at d0
      obtain ⟨hh0, d0'⟩ := d0
      subst hh0
      have hL : L = some false := j0 rfl
      subst hL
      have hmx' : mutex_ok (some false) zs = true := by simpa [mutex_ok] using hmx
      have h1f : h1 = false := by
        cases h1 with
        | false => rfl
        | true => exact absurd (j1 rfl) (by simp)
      have ht1 : t1 = false := by
        cases t1 with
        | false => rfl
        | true => exact absurd (i1 rfl) (by simp [h1f])
      subst ht1
      have hco := ih true true h1 false (some false) ha' hb d0' d1
        (fun _ => rfl) (fun hh => absurd hh (by simp))
        (fun _ => rfl) (fun hh => absurd hh (by simp [h1f])) hmx'
      simp [no_concurrent_touch, touch_upd, hco]
    | touch_end =>
      simp only [discipline] at d0
      have hmx' : mutex_ok L zs = true := by simpa [mutex_ok] using hmx
      have hnb := not_both_touching i0 i1 j0 j1
      have hco := ih h0 false h1 t1 L ha' hb d0 d1
        (fun hh => absurd hh (by simp)) i1 j0 j1 hmx'
      simp only [no_concurrent_touch, touch_upd, hnb, Bool.true_and]
      simp [hco]
  | @right y xs ys zs hrec ih =>
    intro h0 t0 h1 t1 L ha hb d0 d1 i0 i1 j0 j1 hmx
    obtain ⟨tag, e⟩ := y
    have htag : tag = true := hb (tag, e) (by simp)
    subst htag
    have hb' : ∀ x ∈ ys, x.1 = true := fun x hx => hb x (by simp [hx])
    simp only [List.map_cons] at d1
    cases e with
    | acquire =>
      simp only [discipline, Bool.and_eq_true, Bool.not_eq_true'] at d1
      obtain ⟨hh1, d1'⟩ := d1
      subst hh1
      cases L with
      | some c => simp [mutex_ok] at hmx
      | none =>
        have hmx' : mutex_ok (some true) zs = true := by simpa [mutex_ok] using hmx
        have ht1 : t1 = false := by
          cases t1 with
          | false => rfl
          | true => exact absurd (i1 rfl) (by simp)
        subst ht1
        have h0f : h0 = false := by
          cases h0 with
          | false => rfl
          | true => exact absurd (j0 rfl) (by simp)
        have hco := ih h0 t0 true false (some true) ha hb' d0 d1'
          i0 (fun _ => rfl)
          (fun hh => absurd hh (by simp [h0f])) (fun _ => rfl) hmx'
        simp [no_concurrent_touch, touch_upd, hco]
    | release =>
      simp only [discipline, Bool.and_eq_true, Bool.not_eq_true'] at d1
      obtain ⟨⟨hh1, ht1⟩, d1'⟩ := d1
      subst hh1
      subst ht1
      have hL : L = some true := j1 rfl
      subst hL
      have hmx' : mutex_ok none zs = true := by simpa [mutex_ok] using hmx
      have h0f : h0 = false := by
        cases h0 with
        | false => rfl
        | true => exact absurd (j0 rfl) (by simp)
      have hco := ih h0 t0 false false none ha hb' d0 d1'
        i0 (fun hh => absurd hh (by simp))
        (fun hh => absurd hh (by simp [h0f]))
        (fun hh => absurd hh (by simp)) hmx'
      simp [no_concurrent_touch, touch_upd, hco]
    | touch_begin =>
      simp only [discipline, Bool.and_eq_true] at d1
      obtain ⟨hh1, d1'⟩ := d1
      subst hh1
      have hL : L = some true := j1 rfl
      subst hL
      have hmx' : mutex_ok (some true) zs = true := by simpa [mutex_ok] using hmx
      have h0f : h0 = false := by
        cases h0 with
        | false => rfl
        | true => exact absurd (j0 rfl) (by simp)
      have ht0 : t0 = false := by
        cases t0 with
        | false => rfl
        | true => exact absurd (i0 rfl) (by simp [h0f])
      subst ht0
      have hco := ih h0 false true true (some true) ha hb' d0 d1'
        (fun hh => absurd hh (by simp)) (fun _ => rfl)
        (fun hh => absurd hh (by simp [h0f])) (fun _ => rfl) hmx'
      simp [no_concurrent_touch, touch_upd, hco]
    | touch_end =>
      simp only [discipline] at d1
      have hmx' : mutex_ok L zs = true := by simpa [mutex_ok] using hmx
      have hnb := not_both_touching i0 i1 j0 j1
      have hco := ih h0 t0 h1 false L ha hb' d0 d1
        i0 (fun hh => absurd hh (by simp)) j0 j1 hmx'
      simp only [no_concurrent_touch, touch_upd, hnb, Bool.true_and]
      simp [hco]

/-- C3: in every mutex-compatible interleaving of one transfer handle's
monitor thread (stderr take, then any sequence of loop iterations of any
outcome) with the orchestrator's kill path for that handle, at no point are
the monitor's wait or stderr-read access and the kill access to the shared
process handle in progress at the same time: both parties hold the
handle's mutual-exclusion lock while touching the process. -/
theorem claim_c3_wait_kill_mutual_exclusion (choices : List IterKind)
    (tr : List (Bool × LockEv))
    (hint : Interleave ((monitor_events choices).map (fun e => (false, e)))
      (kill_events.map (fun e => (true, e))) tr)
    (hmx : mutex_ok none tr = true) :
    no_concurrent_touch false false tr = true := by
  have hm0 : ((monitor_events choices).map (fun e => ((false : Bool), e))).map
      Prod.snd = monitor_events choices := by simp
  have hm1 : (kill_events.map (fun e => ((true : Bool), e))).map
      Prod.snd = kill_events := by simp
  refine no_touch_race hint false false false false none
    ?_ ?_ ?_ ?_ ?_ ?_ ?_ ?_ hmx
  · intro x hx
    obtain ⟨e, -, rfl⟩ := List.mem_map.mp hx
    rfl
  · intro x hx
    obtain ⟨e, -, rfl⟩ := List.mem_map.mp hx
    rfl
  · rw [hm0]
    exact discipline_monitor choices
  · rw [hm1]
    exact discipline_kill
  · exact fun hh => hh
  · exact fun hh => hh
  · exact fun hh => absurd hh (by decide)
  · exact fun hh => absurd hh (by decide)

/-- Closed instance of claim_c3_wait_kill_mutual_exclusion: a full monitor
run followed by the kill path. -/
theorem claim_c3_wait_kill_mutual_exclusion_witness :
    no_concurrent_touch false false
      (((monitor_events [.exit_success]).map (fun e => (false, e))) ++
        (kill_events.map (fun e => (true, e)))) = true := by
  refine claim_c3_wait_kill_mutual_exclusion [.exit_success] _ ?_ (by decide)
  repeat constructor

end DockerBackup
